import Mathlib

/-!
Verification of the secure credential lifecycle subsystem of the BYOK
(bring-your-own-key) extension: envelope encryption, credential store with
legacy migration (`src/byok/improvements/secureKeyManager.ts`,
`src/extension/byok/vscode-node/byokStorageService.ts`), and the resilience
layer (error taxonomy and retry strategy, `src/byok/improvements/uiEnhancements.ts`).

Strings that the TypeScript code treats as byte buffers (secrets, salts,
envelopes) are embedded as `List Nat` of character codes; map keys
(model/provider identifiers, storage keys) stay `String`.  The single
VS Code `SecretStorage` used by the code partitions into disjoint key
prefixes (`byok.key.`, `byok.rotation.`, `byok.encryption.salt`,
`copilot-byok-`), embedded as separate fields of `ManagerState`.
-/

namespace Byok

/-! ### Base64 (model of Node `Buffer.toString('base64')` / `Buffer.from(_, 'base64')`)

The code persists the envelope and the salt base64-encoded.  Standard
base64 over byte lists: 61 is the code of the padding character. -/

/-- Standard base64 alphabet: sextet value to character code. -/
def sextetToChar (s : Nat) : Nat :=
  if s < 26 then 65 + s
  else if s < 52 then 97 + (s - 26)
  else if s < 62 then 48 + (s - 52)
  else if s = 62 then 43
  else 47

/-- Inverse of the base64 alphabet on character codes. -/
def charToSextet (c : Nat) : Nat :=
  if 65 ≤ c ∧ c ≤ 90 then c - 65
  else if 97 ≤ c ∧ c ≤ 122 then c - 97 + 26
  else if 48 ≤ c ∧ c ≤ 57 then c - 48 + 52
  else if c = 43 then 62
  else 63

/-- Base64-encode a byte list (with `=` padding, code 61). -/
def b64EncodeBytes : List Nat → List Nat
  | [] => []
  | [b0] => [sextetToChar (b0 / 4), sextetToChar (b0 % 4 * 16), 61, 61]
  | [b0, b1] => [sextetToChar (b0 / 4), sextetToChar (b0 % 4 * 16 + b1 / 16),
      sextetToChar (b1 % 16 * 4), 61]
  | b0 :: b1 :: b2 :: rest =>
      sextetToChar (b0 / 4) :: sextetToChar (b0 % 4 * 16 + b1 / 16) ::
      sextetToChar (b1 % 16 * 4 + b2 / 64) :: sextetToChar (b2 % 64) ::
      b64EncodeBytes rest

/-- Base64-decode a character-code list back to bytes. -/
def b64DecodeBytes : List Nat → List Nat
  | c0 :: c1 :: c2 :: c3 :: rest =>
      let s0 := charToSextet c0
      let s1 := charToSextet c1
      if c2 = 61 then [s0 * 4 + s1 / 16]
      else
        let s2 := charToSextet c2
        if c3 = 61 then [s0 * 4 + s1 / 16, s1 % 16 * 16 + s2 / 4]
        else (s0 * 4 + s1 / 16) :: (s1 % 16 * 16 + s2 / 4) ::
          (s2 % 4 * 64 + charToSextet c3) :: b64DecodeBytes rest
  | _ => []

/-! ### AES-256-GCM and PBKDF2 stand-ins

Modelled from the spec: the `crypto` primitives (`createCipheriv` /
`createDecipheriv` with `aes-256-gcm`, `pbkdf2Sync`, `randomBytes`,
`createHash`) are Node library code, not part of this repository.  They are
embedded as concrete executable functions satisfying the contract the spec
states for authenticated encryption (section 4.1 and the glossary): the
keystream is a deterministic function of key and IV, ciphertext has the
length of the plaintext, and the 16-byte authentication tag depends on key,
IV and ciphertext such that any single-byte alteration of the ciphertext
changes the tag. -/

/-- Deterministic mixing fold used by the cipher and KDF stand-ins. -/
def mixFold (l : List Nat) (a : Nat) : Nat :=
  l.foldl (fun acc b => acc * 257 + b + 1) a

/-- Keystream of the AES-256-GCM stand-in: `n` bytes determined by key and IV. -/
def gcmKeystream (key iv : List Nat) (n : Nat) : List Nat :=
  (List.range n).map (fun i => mixFold iv (mixFold key (i + 3)) % 256)

/-- Authentication tag of the AES-256-GCM stand-in: 16 bytes determined by
key, IV and ciphertext; every byte shifts with the ciphertext byte sum, so a
single-byte change in the ciphertext changes the tag. -/
def gcmTag (key iv ct : List Nat) : List Nat :=
  (List.range 16).map (fun j => (mixFold iv (mixFold key (j + 101)) + ct.sum) % 256)

/-- PBKDF2-SHA256 stand-in (`crypto.pbkdf2Sync(machineId, salt, 100000, 32, 'sha256')`):
a deterministic 32-byte key from password and salt. -/
def pbkdf2 (pass salt : List Nat) : List Nat :=
  (List.range 32).map (fun i => mixFold salt (mixFold pass (i + 7)) % 256)

/-- XOR combination of message and keystream (the CTR core of GCM). -/
def xorBytes (msg ks : List Nat) : List Nat :=
  List.zipWith (fun m k => m ^^^ k) msg ks

/-! ### Data model (`secureKeyManager.ts`) -/

/-- `ApiKeyRotation` of `secureKeyManager.ts`: `lastRotated` is a millisecond
timestamp, `autoRotateAfterDays` the optional policy.  The record is stored
JSON-serialized; `JSON.parse (JSON.stringify r) = r` (Node library code) lets
the embedding keep the structure itself. -/
structure ApiKeyRotation where
  lastRotated : Nat
  rotationReminder : Bool
  autoRotateAfterDays : Option Nat
  deriving DecidableEq, Repr

/-- `KeyUsageAudit` of `secureKeyManager.ts`. -/
structure KeyUsageAudit where
  keyId : String
  lastUsed : Nat
  requestCount : Nat
  failedAttempts : Nat
  deriving DecidableEq, Repr

/-- Combined state of the `SecureKeyManager` and its collaborators: the four
disjoint regions of the `SecretStorage` (envelopes under `byok.key.`,
rotation records under `byok.rotation.`, the salt under
`byok.encryption.salt`, legacy entries under `copilot-byok-`), the in-memory
audit map, and the environment (machine identity, clock, entropy counter). -/
structure ManagerState where
  envelopes : List (String × List Nat)
  rotations : List (String × ApiKeyRotation)
  salt : Option (List Nat)
  legacy : List (String × List Nat)
  audits : List (String × KeyUsageAudit)
  machineId : List Nat
  now : Nat
  rng : Nat
  deriving DecidableEq, Repr

/-- Overwrite the binding of `k` in an association list (model of
`storage.store` / `Map.set`). -/
def storeAssoc {β : Type} (k : String) (v : β) (l : List (String × β)) :
    List (String × β) :=
  (k, v) :: l.filter (fun p => p.1 ≠ k)

/-- Remove the binding of `k` (model of `storage.delete` / `Map.delete`). -/
def removeAssoc {β : Type} (k : String) (l : List (String × β)) :
    List (String × β) :=
  l.filter (fun p => p.1 ≠ k)

/-! ### SecureKeyManager operations

State-passing embeddings of the methods of `SecureKeyManager`
(`secureKeyManager.ts`).  A fallible method returns
`Except String α × ManagerState`: the state component carries the side
effects performed before a `throw`. -/

/-- Model of `crypto.randomBytes(n)`: `n` fresh bytes from the entropy
counter, which is advanced. -/
def randomBytes (n : Nat) (st : ManagerState) : List Nat × ManagerState :=
  ((List.range n).map (fun i => (st.rng * 131 + i * 31 + 17) % 256),
    { st with rng := st.rng + 1 })

/-- Model of `SecureKeyManager.getDerivedKey`: load or create the persisted
salt (`byok.encryption.salt`, stored base64-encoded), then derive the key
from the machine identity and the salt string via PBKDF2. -/
def getDerivedKey (st : ManagerState) : List Nat × ManagerState :=
  match st.salt with
  | some s => (pbkdf2 st.machineId s, st)
  | none =>
      let r := randomBytes 32 st
      let newSalt := b64EncodeBytes r.1
      (pbkdf2 st.machineId newSalt, { r.2 with salt := some newSalt })

/-- Model of `SecureKeyManager.encrypt`: derive the key, draw a fresh 16-byte
IV, encrypt, compute the authentication tag, and pack
`iv ++ authTag ++ encrypted` base64-encoded. -/
def encryptOp (text : List Nat) (st : ManagerState) : List Nat × ManagerState :=
  let kst := getDerivedKey st
  let ivst := randomBytes 16 kst.2
  let encrypted := xorBytes text (gcmKeystream kst.1 ivst.1 text.length)
  let authTag := gcmTag kst.1 ivst.1 encrypted
  (b64EncodeBytes (ivst.1 ++ authTag ++ encrypted), ivst.2)

/-- Model of `SecureKeyManager.decrypt`: derive the key, base64-decode,
split off `iv = combined.slice(0,16)`, `authTag = combined.slice(16,32)`,
`encrypted = combined.slice(32)`, and decrypt; authenticated decryption
fails (throws) when the tag does not verify. -/
def decryptOp (encryptedData : List Nat) (st : ManagerState) :
    Except String (List Nat) × ManagerState :=
  let kst := getDerivedKey st
  let combined := b64DecodeBytes encryptedData
  let iv := combined.take 16
  let authTag := (combined.drop 16).take 16
  let encrypted := combined.drop 32
  if gcmTag kst.1 iv encrypted = authTag then
    (Except.ok (xorBytes encrypted (gcmKeystream kst.1 iv encrypted.length)), kst.2)
  else
    (Except.error "Unsupported state or unable to authenticate data", kst.2)

/-- Model of `crypto.createHash('sha256').update(modelId).digest('hex')`
(library code): a deterministic, collision-free digest of the identifier. -/
def hashKeyId (modelId : String) : String :=
  "sha256:" ++ modelId

/-- Model of `SecureKeyManager.updateAudit`. -/
def updateAudit (modelId : String) (success : Bool) (st : ManagerState) :
    ManagerState :=
  let hashedId := hashKeyId modelId
  match st.audits.lookup hashedId with
  | some existing =>
      let updated : KeyUsageAudit :=
        { existing with
          lastUsed := st.now
          requestCount := existing.requestCount + 1
          failedAttempts := existing.failedAttempts + (if success then 0 else 1) }
      { st with audits := storeAssoc hashedId updated st.audits }
  | none =>
      let fresh : KeyUsageAudit :=
        { keyId := hashedId
          lastUsed := st.now
          requestCount := 1
          failedAttempts := if success then 0 else 1 }
      { st with audits := storeAssoc hashedId fresh st.audits }

/-- Model of `SecureKeyManager.getKey`: fetch `byok.key.<modelId>`, throw if
absent, decrypt, record a success audit event.  (`clearFromMemory` only
nudges the garbage collector and has no observable effect.) -/
def getKeyOp (modelId : String) (st : ManagerState) :
    Except String (List Nat) × ManagerState :=
  match st.envelopes.lookup modelId with
  | none => (Except.error ("No API key found for model: " ++ modelId), st)
  | some encryptedData =>
      match decryptOp encryptedData st with
      | (Except.ok key, st1) => (Except.ok key, updateAudit modelId true st1)
      | (Except.error e, st1) => (Except.error e, st1)

/-- Model of `SecureKeyManager.isValidApiKey`: length at least 20 and only
characters matching `[a-zA-Z0-9_-]` (codes 95 and 45 for `_` and `-`). -/
def isValidApiKey (apiKey : List Nat) : Bool :=
  decide (apiKey.length ≥ 20) &&
    apiKey.all (fun c =>
      (65 ≤ c && c ≤ 90) || (97 ≤ c && c ≤ 122) || (48 ≤ c && c ≤ 57) ||
        c = 95 || c = 45)

/-- Model of `SecureKeyManager.initializeRotation`: store a fresh
`ApiKeyRotation` with `lastRotated = new Date()`, `rotationReminder = true`
and the 90-day default policy, overwriting any previous record. -/
def initializeRotation (modelId : String) (st : ManagerState) : ManagerState :=
  let rotation : ApiKeyRotation :=
    { lastRotated := st.now
      rotationReminder := true
      autoRotateAfterDays := some 90 }
  { st with rotations := storeAssoc modelId rotation st.rotations }

/-- Model of `SecureKeyManager.storeKey`: validate the format (throwing
before any write), encrypt, persist the envelope, then initialize rotation
tracking. -/
def storeKeyOp (modelId : String) (apiKey : List Nat) (st : ManagerState) :
    Except String Unit × ManagerState :=
  if isValidApiKey apiKey then
    let est := encryptOp apiKey st
    (Except.ok (),
      initializeRotation modelId
        { est.2 with envelopes := storeAssoc modelId est.1 est.2.envelopes })
  else
    (Except.error "Invalid API key format", st)

/-- Model of `SecureKeyManager.deleteKey`: remove envelope, rotation record
and (hashed) audit entry. -/
def deleteKeyOp (modelId : String) (st : ManagerState) : ManagerState :=
  { st with
    envelopes := removeAssoc modelId st.envelopes
    rotations := removeAssoc modelId st.rotations
    audits := removeAssoc (hashKeyId modelId) st.audits }

/-- Model of `SecureKeyManager.getAudit`. -/
def getAuditOp (modelId : String) (st : ManagerState) : Option KeyUsageAudit :=
  st.audits.lookup (hashKeyId modelId)

/-! ### BYOKStorageService (`byokStorageService.ts`)

The service owns a `SecureKeyManager` constructed over the same
`SecretStorage` (`extensionContext.secrets`), so legacy entries and the
manager's entries live in one `ManagerState`. -/

/-- Key identifier used by the service: `provider-modelId` or `provider`. -/
def keyIdOf (providerName : String) (modelId : Option String) : String :=
  match modelId with
  | some m => providerName ++ "-" ++ m
  | none => providerName

/-- Legacy per-model storage key `copilot-byok-<provider>-<modelId>-api-key`. -/
def legacyModelKey (providerName modelId : String) : String :=
  "copilot-byok-" ++ providerName ++ "-" ++ modelId ++ "-api-key"

/-- Legacy per-provider storage key `copilot-byok-<provider>-api-key`. -/
def legacyProviderKey (providerName : String) : String :=
  "copilot-byok-" ++ providerName ++ "-api-key"

/-- Provider-level tail of the catch block of `BYOKStorageService.getAPIKey`:
probe the legacy provider entry; the `if (providerKey)` truthiness guard
treats a missing value and the falsy empty string alike, so only a
non-empty value is re-stored under the new scheme, the legacy entry deleted,
and the value returned; otherwise resolve `undefined` (`Except.ok none`). -/
def getAPIKeyProviderFallback (providerName : String) (st : ManagerState) :
    Except String (Option (List Nat)) × ManagerState :=
  match st.legacy.lookup (legacyProviderKey providerName) with
  | some providerKey =>
      if providerKey = [] then (Except.ok none, st)
      else
        match storeKeyOp providerName providerKey st with
        | (Except.ok _, st1) =>
            (Except.ok (some providerKey),
              { st1 with legacy := removeAssoc (legacyProviderKey providerName) st1.legacy })
        | (Except.error e, st1) => (Except.error e, st1)
  | none => (Except.ok none, st)

/-- Model of `BYOKStorageService.getAPIKey`: try the `SecureKeyManager`
first; any error falls back to the legacy layout (model-level first when a
`modelId` is given, then provider-level).  The `if (modelKey)` truthiness
guard skips a missing value and the falsy empty string, falling through to
the provider-level probe; a truthy legacy value is re-stored under the new
scheme before the legacy entry is deleted. -/
def getAPIKey (providerName : String) (modelId : Option String)
    (st : ManagerState) : Except String (Option (List Nat)) × ManagerState :=
  match getKeyOp (keyIdOf providerName modelId) st with
  | (Except.ok v, st1) => (Except.ok (some v), st1)
  | (Except.error _, st1) =>
      match modelId with
      | some m =>
          match st1.legacy.lookup (legacyModelKey providerName m) with
          | some modelKey =>
              if modelKey = [] then getAPIKeyProviderFallback providerName st1
              else
                match storeKeyOp (providerName ++ "-" ++ m) modelKey st1 with
                | (Except.ok _, st2) =>
                    (Except.ok (some modelKey),
                      { st2 with legacy := removeAssoc (legacyModelKey providerName m) st2.legacy })
                | (Except.error e, st2) => (Except.error e, st2)
          | none => getAPIKeyProviderFallback providerName st1
      | none => getAPIKeyProviderFallback providerName st1

/-! ### Error taxonomy (`uiEnhancements.ts`)

`BYOKError` and its subclasses carry `code`, `isRetryable` and `userAction`;
the `details` payload is opaque context the claims do not inspect and is
omitted from the embedding. -/

/-- Observable data of a `BYOKError` instance. -/
structure BYOKErrorData where
  name : String
  message : String
  code : String
  isRetryable : Bool
  userAction : Option String
  deriving DecidableEq, Repr

/-- `class AuthenticationError extends BYOKError`. -/
def AuthenticationError (provider : String) : BYOKErrorData :=
  { name := "AuthenticationError"
    message := "Authentication failed for " ++ provider
    code := "AUTH_FAILED"
    isRetryable := false
    userAction := some "Please check your API key and try again" }

/-- `class RateLimitError extends BYOKError`; `retryAfter ? ... : ...` is a
JavaScript truthiness test, false for a missing value and for `0`. -/
def RateLimitError (provider : String) (retryAfter : Option Nat) : BYOKErrorData :=
  { name := "RateLimitError"
    message := "Rate limit exceeded for " ++ provider
    code := "RATE_LIMIT"
    isRetryable := true
    userAction :=
      match retryAfter with
      | some r =>
          if r = 0 then some "Please try again later"
          else some ("Please wait " ++ toString r ++ " seconds")
      | none => some "Please try again later" }

/-- `class NetworkError extends BYOKError`. -/
def NetworkError (provider : String) : BYOKErrorData :=
  { name := "NetworkError"
    message := "Network error connecting to " ++ provider
    code := "NETWORK_ERROR"
    isRetryable := true
    userAction := some "Please check your internet connection" }

/-- `class ModelNotFoundError extends BYOKError`. -/
def ModelNotFoundError (modelId provider : String) : BYOKErrorData :=
  { name := "ModelNotFoundError"
    message := "Model " ++ modelId ++ " not found for provider " ++ provider
    code := "MODEL_NOT_FOUND"
    isRetryable := false
    userAction := some "Please check the model ID or select a different model" }

/-- `class InvalidRequestError extends BYOKError`. -/
def InvalidRequestError (message : String) : BYOKErrorData :=
  { name := "InvalidRequestError"
    message := message
    code := "INVALID_REQUEST"
    isRetryable := false
    userAction := some "Please check your request parameters" }

/-- Raw provider error as inspected by `ErrorMapper.mapAnthropicError`:
`status`, `response.status`, `code`, `error.message`, `message`, `model`,
and the `retry-after` response header. -/
structure RawError where
  status : Option Nat := none
  responseStatus : Option Nat := none
  code : Option String := none
  innerMessage : Option String := none
  message : Option String := none
  model : Option String := none
  retryAfterHeader : Option Nat := none
  deriving DecidableEq, Repr

/-- `error.status || error.response?.status`: JavaScript `||` skips the falsy
values `undefined` and `0`. -/
def statusOf (e : RawError) : Option Nat :=
  match e.status with
  | some s => if s = 0 then e.responseStatus else some s
  | none => e.responseStatus

/-- `error.error?.message || error.message` with the falsy empty string. -/
def messageOf (e : RawError) : Option String :=
  match e.innerMessage with
  | some m => if m = "" then e.message else some m
  | none => e.message

/-- Model of `ErrorMapper.mapAnthropicError`: the `switch` on the HTTP
status (an `undefined` status matches no case), then the default case checks
for connection failures and finally builds `UNKNOWN_ERROR`. -/
def mapAnthropicError (e : RawError) : BYOKErrorData :=
  if statusOf e = some 401 then AuthenticationError "Anthropic"
  else if statusOf e = some 429 then RateLimitError "Anthropic" e.retryAfterHeader
  else if statusOf e = some 404 then ModelNotFoundError ((e.model).getD "unknown") "Anthropic"
  else if statusOf e = some 400 then InvalidRequestError ((messageOf e).getD "")
  else if e.code = some "ENOTFOUND" ∨ e.code = some "ECONNREFUSED" then
    NetworkError "Anthropic"
  else
    { name := "BYOKError"
      message := (messageOf e).getD ""
      code := "UNKNOWN_ERROR"
      isRetryable := false
      userAction := none }

/-! ### Retry strategy (`uiEnhancements.ts`)

`executeWithRetry` runs `for (attempt = 0; attempt <= maxRetries; attempt++)`.
The operation is embedded as a function from the attempt number to its
outcome, the random jitter as an oracle from the attempt number to the drawn
value, and the waits are accumulated in a trace; the result records the
outcome, the number of attempts made, and the delays slept. -/

/-- Retry options (`RetryOptions`), delays in milliseconds as rationals. -/
structure RetryOptionsModel (ε : Type) where
  maxRetries : Nat
  initialDelayMs : ℚ
  maxDelayMs : ℚ
  backoffMultiplier : ℚ
  shouldRetry : ε → Bool

/-- Backoff delay of attempt `attempt`:
`min(initialDelayMs * backoffMultiplier ^ attempt + jitter, maxDelayMs)`
where `jitter = Math.random() * 0.1 * baseDelay`. -/
def delayFor {ε : Type} (opts : RetryOptionsModel ε) (jitter : Nat → ℚ)
    (attempt : Nat) : ℚ :=
  min (opts.initialDelayMs * opts.backoffMultiplier ^ attempt + jitter attempt)
    opts.maxDelayMs

/-- Loop body of `executeWithRetry`; `left = maxRetries - attempt` counts the
iterations still allowed, so `left = 0` is the final iteration (the
`attempt === maxRetries` guard), which propagates the error without
evaluating the predicate or sleeping. -/
def retryGo {ε α : Type} (fn : Nat → Except ε α) (shouldRetry : ε → Bool)
    (delay : Nat → ℚ) : Nat → Nat → List ℚ → Except ε α × Nat × List ℚ
  | 0, attempt, sleeps =>
      match fn attempt with
      | Except.ok v => (Except.ok v, attempt + 1, sleeps)
      | Except.error e => (Except.error e, attempt + 1, sleeps)
  | left + 1, attempt, sleeps =>
      match fn attempt with
      | Except.ok v => (Except.ok v, attempt + 1, sleeps)
      | Except.error e =>
          if shouldRetry e then
            retryGo fn shouldRetry delay left (attempt + 1)
              (sleeps ++ [delay attempt])
          else (Except.error e, attempt + 1, sleeps)

/-- Model of `RetryStrategy.executeWithRetry`. -/
def executeWithRetry {ε α : Type} (fn : Nat → Except ε α)
    (opts : RetryOptionsModel ε) (jitter : Nat → ℚ) :
    Except ε α × Nat × List ℚ :=
  retryGo fn opts.shouldRetry (delayFor opts jitter) opts.maxRetries 0 []

/-! ### Concrete sample inputs used by the witnesses -/

/-- A sample environment: empty stores, no salt yet, a small machine
identity, a fixed clock and entropy counter. -/
def wState : ManagerState :=
  { envelopes := []
    rotations := []
    salt := none
    legacy := []
    audits := []
    machineId := [109, 105, 100]
    now := 1700000000000
    rng := 5 }

/-- A sample valid secret: the 20 character codes 97..116 (`a`..`t`). -/
def wSecret : List Nat := List.range' 97 20

/-- Retry options of the spec scenario: `maxRetries = 3`, defaults
otherwise, a predicate that always returns true. -/
def wRetryOpts : RetryOptionsModel String :=
  { maxRetries := 3
    initialDelayMs := 1000
    maxDelayMs := 30000
    backoffMultiplier := 2
    shouldRetry := fun _ => true }

/-- An operation failing its first two attempts and succeeding on the third. -/
def wRetryFn : Nat → Except String String :=
  fun i => if i < 2 then Except.error "boom" else Except.ok "recovered"

/-- The rotation record `initializeRotation` writes at time `now`. -/
def defaultRotation (now : Nat) : ApiKeyRotation :=
  { lastRotated := now
    rotationReminder := true
    autoRotateAfterDays := some 90 }

/-- State holding only a legacy model-level entry for `anthropic`/`claude`. -/
def c2State : ManagerState :=
  { wState with legacy := [(legacyModelKey "anthropic" "claude", wSecret)] }

set_option maxRecDepth 100000

theorem charToSextet_sextetToChar : ∀ s, s < 64 → charToSextet (sextetToChar s) = s := by
  decide

theorem sextetToChar_ne_pad (s : Nat) : sextetToChar s ≠ 61 := by
  unfold sextetToChar
  split
  · omega
  · split
    · omega
    · split
      · omega
      · split <;> omega

theorem b64_roundtrip : ∀ l : List Nat, (∀ b ∈ l, b < 256) →
    b64DecodeBytes (b64EncodeBytes l) = l
  | [], _ => rfl
  | [b0], h => by
    have hb0 : b0 < 256 := h b0 (by simp)
    simp only [b64EncodeBytes, b64DecodeBytes]
    rw [charToSextet_sextetToChar _ (by omega), charToSextet_sextetToChar _ (by omega),
      if_true]
    simp only [List.cons.injEq, and_true]
    omega
  | [b0, b1], h => by
    have hb0 : b0 < 256 := h b0 (by simp)
    have hb1 : b1 < 256 := h b1 (by simp)
    simp only [b64EncodeBytes, b64DecodeBytes]
    rw [if_neg (sextetToChar_ne_pad _)]
    rw [charToSextet_sextetToChar _ (by omega), charToSextet_sextetToChar _ (by omega),
      charToSextet_sextetToChar _ (by omega), if_true]
    simp only [List.cons.injEq, and_true]
    constructor <;> omega
  | b0 :: b1 :: b2 :: rest, h => by
    have hb0 : b0 < 256 := h b0 (by simp)
    have hb1 : b1 < 256 := h b1 (by simp)
    have hb2 : b2 < 256 := h b2 (by simp)
    have ih := b64_roundtrip rest (fun b hb => h b (by simp [hb]))
    simp only [b64EncodeBytes, b64DecodeBytes]
    rw [if_neg (sextetToChar_ne_pad _), if_neg (sextetToChar_ne_pad _)]
    rw [charToSextet_sextetToChar _ (by omega), charToSextet_sextetToChar _ (by omega),
      charToSextet_sextetToChar _ (by omega), charToSextet_sextetToChar _ (by omega)]
    simp only [List.cons.injEq]
    refine ⟨by omega, by omega, by omega, ih⟩

theorem gcmKeystream_length (key iv : List Nat) (n : Nat) :
    (gcmKeystream key iv n).length = n := by
  simp [gcmKeystream]

theorem gcmTag_length (key iv ct : List Nat) : (gcmTag key iv ct).length = 16 := by
  simp [gcmTag]

theorem xorBytes_length (msg ks : List Nat) :
    (xorBytes msg ks).length = min msg.length ks.length := by
  simp [xorBytes]

theorem xorBytes_cancel : ∀ msg ks : List Nat, msg.length ≤ ks.length →
    xorBytes (xorBytes msg ks) ks = msg
  | [], _, _ => rfl
  | _ :: _, [], h => by simp at h
  | m :: msg, k :: ks, h => by
    have h2 : msg.length ≤ ks.length := by
      simp only [List.length_cons] at h
      omega
    have ih := xorBytes_cancel msg ks h2
    simp only [xorBytes, List.zipWith_cons_cons, List.cons.injEq] at ih ⊢
    refine ⟨?_, ih⟩
    rw [Nat.xor_assoc, Nat.xor_self, Nat.xor_zero]

theorem xorBytes_lt : ∀ msg ks : List Nat, (∀ b ∈ msg, b < 256) →
    (∀ b ∈ ks, b < 256) → ∀ b ∈ xorBytes msg ks, b < 256
  | [], _, _, _ => by simp [xorBytes]
  | _ :: _, [], _, _ => by simp [xorBytes]
  | m :: msg, k :: ks, hm, hk => by
    intro b hb
    simp only [xorBytes, List.zipWith_cons_cons, List.mem_cons] at hb
    rcases hb with rfl | hb
    · have h1 : (256 : Nat) = 2 ^ 8 := rfl
      rw [h1]
      exact Nat.xor_lt_two_pow (h1 ▸ hm m (by simp)) (h1 ▸ hk k (by simp))
    · exact xorBytes_lt msg ks (fun x hx => hm x (by simp [hx]))
        (fun x hx => hk x (by simp [hx])) b hb

theorem gcmKeystream_lt (key iv : List Nat) (n : Nat) :
    ∀ b ∈ gcmKeystream key iv n, b < 256 := by
  intro b hb
  simp only [gcmKeystream, List.mem_map] at hb
  obtain ⟨i, _, rfl⟩ := hb
  exact Nat.mod_lt _ (by omega)

theorem gcmTag_lt (key iv ct : List Nat) : ∀ b ∈ gcmTag key iv ct, b < 256 := by
  intro b hb
  simp only [gcmTag, List.mem_map] at hb
  obtain ⟨i, _, rfl⟩ := hb
  exact Nat.mod_lt _ (by omega)

theorem lookup_storeAssoc_self {β : Type} (k : String) (v : β) (l : List (String × β)) :
    (storeAssoc k v l).lookup k = some v := by
  simp [storeAssoc]

theorem lookup_filter_ne {β : Type} (k : String) : ∀ l : List (String × β),
    (l.filter (fun p => p.1 ≠ k)).lookup k = none
  | [] => rfl
  | (a, b) :: l => by
    by_cases hak : a = k
    · rw [List.filter_cons, if_neg (by simp [hak])]
      exact lookup_filter_ne k l
    · rw [List.filter_cons, if_pos (by simp [hak])]
      have hbe : (k == a) = false := by simp [Ne.symm hak]
      simp only [List.lookup_cons, hbe]
      exact lookup_filter_ne k l

theorem lookup_filter_other {β : Type} (k k' : String) (hk : k' ≠ k) :
    ∀ l : List (String × β),
    (l.filter (fun p => p.1 ≠ k)).lookup k' = l.lookup k'
  | [] => rfl
  | (a, b) :: l => by
    by_cases hak : a = k
    · subst hak
      rw [List.filter_cons, if_neg (by simp)]
      rw [lookup_filter_other a k' hk l]
      have hbe : (k' == a) = false := by simp [hk]
      simp only [List.lookup_cons, hbe]
    · rw [List.filter_cons, if_pos (by simp [hak])]
      by_cases hka : k' = a
      · subst hka
        simp only [List.lookup_cons, beq_self_eq_true]
      · have hbe : (k' == a) = false := by simp [hka]
        simp only [List.lookup_cons, hbe]
        exact lookup_filter_other k k' hk l

theorem lookup_storeAssoc_other {β : Type} (k k' : String) (v : β)
    (l : List (String × β)) (hk : k' ≠ k) :
    (storeAssoc k v l).lookup k' = l.lookup k' := by
  have hbe : (k' == k) = false := by simp [hk]
  simp only [storeAssoc, List.lookup_cons, hbe]
  exact lookup_filter_other k k' hk l

theorem lookup_removeAssoc_self {β : Type} (k : String) (l : List (String × β)) :
    (removeAssoc k l).lookup k = none :=
  lookup_filter_ne k l

theorem lookup_removeAssoc_other {β : Type} (k k' : String) (l : List (String × β))
    (hk : k' ≠ k) : (removeAssoc k l).lookup k' = l.lookup k' :=
  lookup_filter_other k k' hk l

/-! ### Helper lemmas about the operations -/

theorem randomBytes_length (n : Nat) (st : ManagerState) :
    (randomBytes n st).1.length = n := by
  simp [randomBytes]

theorem randomBytes_lt (n : Nat) (st : ManagerState) :
    ∀ b ∈ (randomBytes n st).1, b < 256 := by
  intro b hb
  simp only [randomBytes, List.mem_map] at hb
  obtain ⟨i, _, rfl⟩ := hb
  exact Nat.mod_lt _ (by omega)

theorem randomBytes_state (n : Nat) (st : ManagerState) :
    (randomBytes n st).2 = { st with rng := st.rng + 1 } := rfl

theorem getDerivedKey_stable (st : ManagerState) (s : List Nat)
    (h : st.salt = some s) :
    getDerivedKey st = (pbkdf2 st.machineId s, st) := by
  simp [getDerivedKey, h]

theorem getDerivedKey_spec (st : ManagerState) :
    ∃ s', (getDerivedKey st).2.salt = some s' ∧
      (getDerivedKey st).1 = pbkdf2 st.machineId s' ∧
      (getDerivedKey st).2.machineId = st.machineId ∧
      (getDerivedKey st).2.envelopes = st.envelopes ∧
      (getDerivedKey st).2.rotations = st.rotations ∧
      (getDerivedKey st).2.legacy = st.legacy ∧
      (getDerivedKey st).2.audits = st.audits ∧
      (getDerivedKey st).2.now = st.now := by
  cases hs : st.salt with
  | some s => exact ⟨s, by simp [getDerivedKey, hs]⟩
  | none =>
      exact ⟨b64EncodeBytes (randomBytes 32 st).1, by simp [getDerivedKey, randomBytes, hs]⟩

theorem encryptOp_salt (text : List Nat) (st : ManagerState) :
    (encryptOp text st).2.salt = (getDerivedKey st).2.salt := rfl

theorem encryptOp_fields (text : List Nat) (st : ManagerState) :
    (encryptOp text st).2.envelopes = st.envelopes ∧
    (encryptOp text st).2.rotations = st.rotations ∧
    (encryptOp text st).2.legacy = st.legacy ∧
    (encryptOp text st).2.audits = st.audits ∧
    (encryptOp text st).2.machineId = st.machineId ∧
    (encryptOp text st).2.now = st.now := by
  obtain ⟨s', h1, h2, h3, h4, h5, h6, h7, h8⟩ := getDerivedKey_spec st
  exact ⟨h4, h5, h6, h7, h3, h8⟩

/-- Round trip of the envelope crypto: decrypting an envelope in any state
that carries the salt persisted by the encryption and the same machine
identity (hence the same derived key) recovers the plaintext and performs no
state change. -/
theorem decryptOp_encryptOp_matching (st st' : ManagerState) (text : List Nat)
    (ht : ∀ b ∈ text, b < 256)
    (hsalt' : st'.salt = (encryptOp text st).2.salt)
    (hmid' : st'.machineId = st.machineId) :
    decryptOp (encryptOp text st).1 st' = (Except.ok text, st') := by
  obtain ⟨s', hsalt, hkey, hmid, _, _, _, _, _⟩ := getDerivedKey_spec st
  set kst := getDerivedKey st with hkst
  set iv := (randomBytes 16 kst.2).1 with hiv
  have hivlen : iv.length = 16 := randomBytes_length 16 kst.2
  have hivlt : ∀ b ∈ iv, b < 256 := randomBytes_lt 16 kst.2
  set encrypted := xorBytes text (gcmKeystream kst.1 iv text.length) with henc
  have henclt : ∀ b ∈ encrypted, b < 256 :=
    xorBytes_lt text _ ht (gcmKeystream_lt _ _ _)
  have henclen : encrypted.length = text.length := by
    rw [henc, xorBytes_length, gcmKeystream_length, Nat.min_self]
  set authTag := gcmTag kst.1 iv encrypted with htag
  have htaglt : ∀ b ∈ authTag, b < 256 := gcmTag_lt _ _ _
  have hblob : ∀ b ∈ iv ++ authTag ++ encrypted, b < 256 := by
    intro b hb
    rcases List.mem_append.1 hb with hb1 | hb2
    · rcases List.mem_append.1 hb1 with hb3 | hb4
      · exact hivlt b hb3
      · exact htaglt b hb4
    · exact henclt b hb2
  have hsalt2 : st'.salt = some s' := by rw [hsalt']; exact hsalt
  have hgd2 : getDerivedKey st' = (kst.1, st') := by
    rw [getDerivedKey_stable st' s' hsalt2, hmid', hkey]
  have hout : (encryptOp text st).1 = b64EncodeBytes (iv ++ authTag ++ encrypted) := rfl
  rw [hout]
  simp only [decryptOp]
  rw [hgd2]
  rw [b64_roundtrip _ hblob]
  have htake : (iv ++ authTag ++ encrypted).take 16 = iv := by
    rw [List.append_assoc]
    exact List.take_left' hivlen
  have hdrop16 : (iv ++ authTag ++ encrypted).drop 16 = authTag ++ encrypted := by
    rw [List.append_assoc]
    exact List.drop_left' hivlen
  have htag16 : ((iv ++ authTag ++ encrypted).drop 16).take 16 = authTag := by
    rw [hdrop16]
    exact List.take_left' (gcmTag_length _ _ _)
  have hdrop32 : (iv ++ authTag ++ encrypted).drop 32 = encrypted := by
    have h32 : (iv ++ authTag).length = 32 := by
      rw [List.length_append, hivlen, gcmTag_length]
    exact List.drop_left' h32
  rw [htake, htag16, hdrop32]
  rw [if_pos rfl]
  dsimp only
  rw [henclen, henc, xorBytes_cancel text _ (by rw [gcmKeystream_length])]

theorem isValidApiKey_bytes_lt (s : List Nat) (h : isValidApiKey s = true) :
    ∀ b ∈ s, b < 256 := by
  intro b hb
  simp only [isValidApiKey, Bool.and_eq_true, List.all_eq_true] at h
  have hc := h.2 b hb
  simp only [Bool.or_eq_true, Bool.and_eq_true, decide_eq_true_eq] at hc
  omega

theorem sum_set_add : ∀ (l : List Nat) (j w v : Nat), l[j]? = some v →
    (l.set j w).sum + v = l.sum + w
  | [], j, w, v, h => by simp at h
  | a :: l, 0, w, v, h => by
    simp only [List.getElem?_cons_zero, Option.some.injEq] at h
    subst h
    simp only [List.set, List.sum_cons]
    omega
  | a :: l, j + 1, w, v, h => by
    have ih := sum_set_add l j w v (by simpa using h)
    simp only [List.set, List.sum_cons]
    omega

theorem gcmTag_ne_of_sum_ne (key iv ct ct' : List Nat)
    (h : ct.sum % 256 ≠ ct'.sum % 256) : gcmTag key iv ct ≠ gcmTag key iv ct' := by
  intro he
  have h0 := congrArg (fun l => l[0]?) he
  simp only [gcmTag, List.getElem?_map, List.getElem?_range (by omega : (0:Nat) < 16),
    Option.map_some', Option.some.injEq] at h0
  omega

theorem set_ne_of_getElem_ne (l : List Nat) (j w : Nat) (hj : j < l.length)
    (hne : l[j]? ≠ some w) : l.set j w ≠ l := by
  intro he
  have h0 := congrArg (fun x => x[j]?) he
  simp only [List.getElem?_set_self hj] at h0
  exact hne h0.symm

/-- Core of tamper detection: altering any byte at position 16 or later of
the packed blob (the authentication-tag or ciphertext region) breaks the tag
verification performed by `decryptOp`. -/
theorem tamper_tag_mismatch (key iv enc : List Nat) (hivlen : iv.length = 16)
    (henclt : ∀ b ∈ enc, b < 256) (i w : Nat) (hw : w < 256) (hi : 16 ≤ i)
    (hlen : i < (iv ++ gcmTag key iv enc ++ enc).length)
    (hne : (iv ++ gcmTag key iv enc ++ enc)[i]? ≠ some w) :
    ¬ (gcmTag key (((iv ++ gcmTag key iv enc ++ enc).set i w).take 16)
        (((iv ++ gcmTag key iv enc ++ enc).set i w).drop 32) =
      ((((iv ++ gcmTag key iv enc ++ enc).set i w).drop 16).take 16)) := by
  set tag := gcmTag key iv enc with htagdef
  have htlen : tag.length = 16 := gcmTag_length key iv enc
  have hblen : (iv ++ tag ++ enc).length = 32 + enc.length := by
    simp [List.length_append, hivlen, htlen]
    omega
  by_cases hreg : i < 32
  · -- tag region: 16 ≤ i < 32
    have hset : (iv ++ tag ++ enc).set i w = iv ++ (tag.set (i - 16) w ++ enc) := by
      rw [List.append_assoc]
      rw [List.set_append_right _ _ (by omega : iv.length ≤ i)]
      rw [List.set_append_left _ _ (by rw [htlen]; omega), hivlen]
    have hj : i - 16 < tag.length := by omega
    have hval : (iv ++ tag ++ enc)[i]? = tag[i - 16]? := by
      rw [List.append_assoc]
      rw [List.getElem?_append_right (by omega : iv.length ≤ i), hivlen]
      rw [List.getElem?_append_left hj]
    rw [hset]
    have hstl : (tag.set (i - 16) w).length = 16 := by rw [List.length_set, htlen]
    have htake : (iv ++ (tag.set (i - 16) w ++ enc)).take 16 = iv :=
      List.take_left' hivlen
    have hdt : ((iv ++ (tag.set (i - 16) w ++ enc)).drop 16).take 16 =
        tag.set (i - 16) w := by
      rw [List.drop_left' hivlen]
      exact List.take_left' hstl
    have hd32 : (iv ++ (tag.set (i - 16) w ++ enc)).drop 32 = enc := by
      rw [← List.append_assoc]
      refine List.drop_left' ?_
      rw [List.length_append, hivlen, hstl]
    rw [htake, hdt, hd32, ← htagdef]
    intro he
    exact set_ne_of_getElem_ne tag (i - 16) w hj (by rw [← hval]; exact hne) he.symm
  · -- ciphertext region: 32 ≤ i
    have h32 : (iv ++ tag).length = 32 := by rw [List.length_append, hivlen, htlen]
    have hset : (iv ++ tag ++ enc).set i w = iv ++ tag ++ enc.set (i - 32) w := by
      rw [List.set_append_right _ _ (by omega : (iv ++ tag).length ≤ i), h32]
    have hj : i - 32 < enc.length := by omega
    have hval : (iv ++ tag ++ enc)[i]? = enc[i - 32]? := by
      rw [List.getElem?_append_right (by omega : (iv ++ tag).length ≤ i), h32]
    rw [hset]
    have hstl : (enc.set (i - 32) w).length = enc.length := List.length_set enc _ _
    have htake : (iv ++ tag ++ enc.set (i - 32) w).take 16 = iv := by
      rw [List.append_assoc]
      exact List.take_left' hivlen
    have hdt : ((iv ++ tag ++ enc.set (i - 32) w).drop 16).take 16 = tag := by
      rw [List.append_assoc, List.drop_left' hivlen]
      exact List.take_left' htlen
    have hd32 : (iv ++ tag ++ enc.set (i - 32) w).drop 32 = enc.set (i - 32) w :=
      List.drop_left' h32
    rw [htake, hdt, hd32]
    have hv : enc[i - 32]? = some enc[i - 32] := List.getElem?_eq_getElem hj
    have hvlt : enc[i - 32] < 256 := henclt _ (List.getElem_mem hj)
    have hvne : enc[i - 32] ≠ w := by
      intro he
      exact hne (by rw [hval, hv, he])
    have hsum := sum_set_add enc (i - 32) w enc[i - 32] hv
    intro he
    rw [htagdef] at he
    exact gcmTag_ne_of_sum_ne key iv (enc.set (i - 32) w) enc (by omega) he

/-- Op-level tamper detection: decrypting an envelope whose decoded blob was
altered at any single byte position of the tag or ciphertext region (byte 16
onwards) fails with the authentication error, in any state carrying the
matching salt and machine identity. -/
theorem decryptOp_tampered (st st' : ManagerState) (text : List Nat)
    (ht : ∀ b ∈ text, b < 256)
    (hsalt' : st'.salt = (encryptOp text st).2.salt)
    (hmid' : st'.machineId = st.machineId)
    (i w : Nat) (hw : w < 256) (hi : 16 ≤ i)
    (hlen : i < (b64DecodeBytes (encryptOp text st).1).length)
    (hne : (b64DecodeBytes (encryptOp text st).1)[i]? ≠ some w) :
    (decryptOp (b64EncodeBytes ((b64DecodeBytes (encryptOp text st).1).set i w)) st').1 =
      Except.error "Unsupported state or unable to authenticate data" := by
  obtain ⟨s', hsalt, hkey, hmid, _, _, _, _, _⟩ := getDerivedKey_spec st
  set kst := getDerivedKey st with hkst
  set iv := (randomBytes 16 kst.2).1 with hiv
  have hivlen : iv.length = 16 := randomBytes_length 16 kst.2
  have hivlt : ∀ b ∈ iv, b < 256 := randomBytes_lt 16 kst.2
  set encrypted := xorBytes text (gcmKeystream kst.1 iv text.length) with henc
  have henclt : ∀ b ∈ encrypted, b < 256 :=
    xorBytes_lt text _ ht (gcmKeystream_lt _ _ _)
  set authTag := gcmTag kst.1 iv encrypted with htag
  have htaglt : ∀ b ∈ authTag, b < 256 := gcmTag_lt _ _ _
  have hblob : ∀ b ∈ iv ++ authTag ++ encrypted, b < 256 := by
    intro b hb
    rcases List.mem_append.1 hb with hb1 | hb2
    · rcases List.mem_append.1 hb1 with hb3 | hb4
      · exact hivlt b hb3
      · exact htaglt b hb4
    · exact henclt b hb2
  have hdecode : b64DecodeBytes (encryptOp text st).1 = iv ++ authTag ++ encrypted := by
    have hout : (encryptOp text st).1 = b64EncodeBytes (iv ++ authTag ++ encrypted) := rfl
    rw [hout, b64_roundtrip _ hblob]
  rw [hdecode] at hlen hne ⊢
  have hblob' : ∀ b ∈ (iv ++ authTag ++ encrypted).set i w, b < 256 := by
    intro b hb
    rcases List.mem_or_eq_of_mem_set hb with h | rfl
    · exact hblob b h
    · exact hw
  have hsalt2 : st'.salt = some s' := by rw [hsalt']; exact hsalt
  have hgd2 : getDerivedKey st' = (kst.1, st') := by
    rw [getDerivedKey_stable st' s' hsalt2, hmid', hkey]
  simp only [decryptOp]
  rw [hgd2, b64_roundtrip _ hblob']
  rw [if_neg (tamper_tag_mismatch kst.1 iv encrypted hivlen henclt i w hw hi hlen hne)]

/-! ### Retry loop lemmas -/

theorem retryGo_ok {ε α : Type} (fn : Nat → Except ε α) (sr : ε → Bool) (d : Nat → ℚ)
    (left attempt : Nat) (sleeps : List ℚ) (v : α) (h : fn attempt = Except.ok v) :
    retryGo fn sr d left attempt sleeps = (Except.ok v, attempt + 1, sleeps) := by
  cases left <;> simp [retryGo, h]

theorem retryGo_succeeds {ε α : Type} (fn : Nat → Except ε α) (sr : ε → Bool)
    (d : Nat → ℚ) (v : α) :
    ∀ (n attempt left : Nat) (sleeps : List ℚ),
      (∀ j < n, ∃ e, fn (attempt + j) = Except.error e ∧ sr e = true) →
      fn (attempt + n) = Except.ok v → n ≤ left →
      retryGo fn sr d left attempt sleeps =
        (Except.ok v, attempt + n + 1,
          sleeps ++ (List.range n).map (fun j => d (attempt + j))) := by
  intro n
  induction n with
  | zero =>
      intro attempt left sleeps hfail hok hle
      rw [Nat.add_zero] at hok
      rw [retryGo_ok fn sr d left attempt sleeps v hok]
      simp
  | succ n ih =>
      intro attempt left sleeps hfail hok hle
      obtain ⟨e, he, hse⟩ := hfail 0 (Nat.succ_pos n)
      rw [Nat.add_zero] at he
      match left with
      | 0 => omega
      | l + 1 =>
          have hstep : retryGo fn sr d (l + 1) attempt sleeps =
              retryGo fn sr d l (attempt + 1) (sleeps ++ [d attempt]) := by
            simp [retryGo, he, hse]
          rw [hstep]
          rw [ih (attempt + 1) l (sleeps ++ [d attempt])
            (fun j hj => by
              obtain ⟨e', he', hse'⟩ := hfail (j + 1) (by omega)
              refine ⟨e', ?_, hse'⟩
              rw [show attempt + 1 + j = attempt + (j + 1) by omega]
              exact he')
            (by rw [show attempt + 1 + n = attempt + (n + 1) by omega]; exact hok)
            (by omega)]
          simp only [Prod.mk.injEq]
          refine ⟨trivial, by omega, ?_⟩
          have hfun : (fun j => d (attempt + 1 + j)) = (fun j => d (attempt + (j + 1))) := by
            funext j
            congr 1
            omega
          rw [List.range_succ_eq_map, List.map_cons, List.map_map, List.append_assoc,
            List.singleton_append, Nat.add_zero, hfun]
          rfl

theorem retryGo_exhaust {ε α : Type} (fn : Nat → Except ε α) (sr : ε → Bool)
    (d : Nat → ℚ) (e : ε) :
    ∀ (n attempt left : Nat) (sleeps : List ℚ),
      (∀ j < n, ∃ e', fn (attempt + j) = Except.error e' ∧ sr e' = true) →
      fn (attempt + n) = Except.error e →
      n ≤ left → (n = left ∨ sr e = false) →
      retryGo fn sr d left attempt sleeps =
        (Except.error e, attempt + n + 1,
          sleeps ++ (List.range n).map (fun j => d (attempt + j))) := by
  intro n
  induction n with
  | zero =>
      intro attempt left sleeps hfail hlast hle hterm
      rw [Nat.add_zero] at hlast
      rcases hterm with rfl | hsf
      · simp [retryGo, hlast]
      · cases left with
        | zero => simp [retryGo, hlast]
        | succ l => simp [retryGo, hlast, hsf]
  | succ n ih =>
      intro attempt left sleeps hfail hlast hle hterm
      obtain ⟨e', he, hse⟩ := hfail 0 (Nat.succ_pos n)
      rw [Nat.add_zero] at he
      match left with
      | 0 => omega
      | l + 1 =>
          have hstep : retryGo fn sr d (l + 1) attempt sleeps =
              retryGo fn sr d l (attempt + 1) (sleeps ++ [d attempt]) := by
            simp [retryGo, he, hse]
          rw [hstep]
          rw [ih (attempt + 1) l (sleeps ++ [d attempt])
            (fun j hj => by
              obtain ⟨e'', he'', hse''⟩ := hfail (j + 1) (by omega)
              refine ⟨e'', ?_, hse''⟩
              rw [show attempt + 1 + j = attempt + (j + 1) by omega]
              exact he'')
            (by rw [show attempt + 1 + n = attempt + (n + 1) by omega]; exact hlast)
            (by omega)
            (by rcases hterm with h | h
                · exact Or.inl (by omega)
                · exact Or.inr h)]
          simp only [Prod.mk.injEq]
          refine ⟨trivial, by omega, ?_⟩
          have hfun : (fun j => d (attempt + 1 + j)) = (fun j => d (attempt + (j + 1))) := by
            funext j
            congr 1
            omega
          rw [List.range_succ_eq_map, List.map_cons, List.map_map, List.append_assoc,
            List.singleton_append, Nat.add_zero, hfun]
          rfl

/-! ### Claims -/

/-- C1: for every valid secret string `s`, decrypting the envelope produced
by encrypting `s` under the same derived key (the state the encryption
produced: same persisted salt, same machine identity) returns `s`. -/
theorem c1_decrypt_encrypt_roundtrip (st : ManagerState) (s : List Nat)
    (hv : isValidApiKey s = true) :
    decryptOp (encryptOp s st).1 (encryptOp s st).2 =
      (Except.ok s, (encryptOp s st).2) :=
  decryptOp_encryptOp_matching st (encryptOp s st).2 s (isValidApiKey_bytes_lt s hv)
    rfl (encryptOp_fields s st).2.2.2.2.1

theorem c1_witness :
    isValidApiKey wSecret = true ∧
    decryptOp (encryptOp wSecret wState).1 (encryptOp wSecret wState).2 =
      (Except.ok wSecret, (encryptOp wSecret wState).2) :=
  ⟨by decide, c1_decrypt_encrypt_roundtrip wState wSecret (by decide)⟩

/-- C8: for every envelope produced by `encrypt` from a valid secret,
altering any byte of the authentication-tag or ciphertext region of the
packed blob (positions 16 onwards) makes `decrypt` fail with an error (fail
closed), while the untampered envelope decrypts to exactly the original
secret, never an altered value. -/
theorem c8_tamper_fails (st : ManagerState) (s : List Nat) (i w : Nat)
    (hv : isValidApiKey s = true) (hw : w < 256) (hi : 16 ≤ i)
    (hlen : i < (b64DecodeBytes (encryptOp s st).1).length)
    (hne : (b64DecodeBytes (encryptOp s st).1)[i]? ≠ some w) :
    (decryptOp (b64EncodeBytes ((b64DecodeBytes (encryptOp s st).1).set i w))
        (encryptOp s st).2).1 =
      Except.error "Unsupported state or unable to authenticate data" ∧
    decryptOp (encryptOp s st).1 (encryptOp s st).2 =
      (Except.ok s, (encryptOp s st).2) := by
  have ht := isValidApiKey_bytes_lt s hv
  have hmid := (encryptOp_fields s st).2.2.2.2.1
  exact ⟨decryptOp_tampered st (encryptOp s st).2 s ht rfl hmid i w hw hi hlen hne,
    decryptOp_encryptOp_matching st (encryptOp s st).2 s ht rfl hmid⟩

theorem c8_witness :
    isValidApiKey wSecret = true ∧ (0:Nat) < 256 ∧ (16:Nat) ≤ 16 ∧
    16 < (b64DecodeBytes (encryptOp wSecret wState).1).length ∧
    (b64DecodeBytes (encryptOp wSecret wState).1)[16]? ≠ some 0 ∧
    ((decryptOp (b64EncodeBytes ((b64DecodeBytes (encryptOp wSecret wState).1).set 16 0))
        (encryptOp wSecret wState).2).1 =
      Except.error "Unsupported state or unable to authenticate data" ∧
    decryptOp (encryptOp wSecret wState).1 (encryptOp wSecret wState).2 =
      (Except.ok wSecret, (encryptOp wSecret wState).2)) :=
  ⟨by decide, by decide, by decide, by decide, by decide,
    c8_tamper_fails wState wSecret 16 0 (by decide) (by decide) (by decide)
      (by decide) (by decide)⟩

/-- C3: `executeWithRetry` returns the operation's value as soon as an
attempt succeeds; a failing attempt propagates the error immediately — one
more attempt than the retries made, no extra delay — exactly when the
attempt count has reached `maxRetries` or the predicate rejects the error;
and an operation failing twice then succeeding, with `maxRetries = 3` and an
always-true predicate, yields the success value after exactly 3 attempts and
2 backoff delays. -/
theorem c3_executeWithRetry_spec (ε α : Type) (fn : Nat → Except ε α)
    (opts : RetryOptionsModel ε) (jitter : Nat → ℚ) :
    (∀ v, fn 0 = Except.ok v →
      executeWithRetry fn opts jitter = (Except.ok v, 1, [])) ∧
    (∀ n e, n ≤ opts.maxRetries →
      (∀ j < n, ∃ ej, fn j = Except.error ej ∧ opts.shouldRetry ej = true) →
      fn n = Except.error e →
      (n = opts.maxRetries ∨ opts.shouldRetry e = false) →
      executeWithRetry fn opts jitter =
        (Except.error e, n + 1, (List.range n).map (delayFor opts jitter))) ∧
    (∀ v e, opts.maxRetries = 3 → (∀ x, opts.shouldRetry x = true) →
      (∀ j < 2, fn j = Except.error e) → fn 2 = Except.ok v →
      executeWithRetry fn opts jitter =
        (Except.ok v, 3, [delayFor opts jitter 0, delayFor opts jitter 1])) := by
  refine ⟨?_, ?_, ?_⟩
  · intro v hv
    unfold executeWithRetry
    rw [retryGo_ok _ _ _ _ _ _ v hv]
  · intro n e hn hfail hlast hterm
    unfold executeWithRetry
    have h := retryGo_exhaust fn opts.shouldRetry (delayFor opts jitter) e n 0
      opts.maxRetries []
      (fun j hj => by simpa using hfail j hj)
      (by simpa using hlast) hn (by tauto)
    simpa using h
  · intro v e hm hs hfail hok
    unfold executeWithRetry
    have h := retryGo_succeeds fn opts.shouldRetry (delayFor opts jitter) v 2 0
      opts.maxRetries []
      (fun j hj => ⟨e, by simpa using hfail j hj, hs e⟩)
      (by simpa using hok) (by omega)
    simpa [List.range_succ] using h

theorem c3_witness :
    wRetryOpts.maxRetries = 3 ∧ (∀ x, wRetryOpts.shouldRetry x = true) ∧
    (∀ j < 2, wRetryFn j = Except.error "boom") ∧ wRetryFn 2 = Except.ok "recovered" ∧
    executeWithRetry wRetryFn wRetryOpts (fun _ => 0) =
      (Except.ok "recovered", 3,
        [delayFor wRetryOpts (fun _ => 0) 0, delayFor wRetryOpts (fun _ => 0) 1]) :=
  ⟨rfl, fun _ => rfl, by intro j hj; interval_cases j <;> rfl, rfl,
    (c3_executeWithRetry_spec String String wRetryFn wRetryOpts (fun _ => 0)).2.2
      "recovered" "boom" rfl (fun _ => rfl)
      (by intro j hj; interval_cases j <;> rfl) rfl⟩

/-- C6: the Anthropic error mapper is total — every raw error maps to one of
the closed set of classified codes — with status 401 mapping to the
authentication failure (non-retryable), status 429 to the rate limit
(retryable), and inputs matching no known pattern to `UNKNOWN_ERROR`
(non-retryable). -/
theorem c6_mapAnthropicError_total (e : RawError) :
    (mapAnthropicError e).code ∈
      (["AUTH_FAILED", "RATE_LIMIT", "MODEL_NOT_FOUND", "INVALID_REQUEST",
        "NETWORK_ERROR", "UNKNOWN_ERROR"] : List String) ∧
    (statusOf e = some 401 →
      (mapAnthropicError e).code = "AUTH_FAILED" ∧
        (mapAnthropicError e).isRetryable = false) ∧
    (statusOf e = some 429 →
      (mapAnthropicError e).code = "RATE_LIMIT" ∧
        (mapAnthropicError e).isRetryable = true) ∧
    ((∀ s, statusOf e = some s → s ∉ ([400, 401, 404, 429] : List Nat)) →
      e.code ≠ some "ENOTFOUND" → e.code ≠ some "ECONNREFUSED" →
      (mapAnthropicError e).code = "UNKNOWN_ERROR" ∧
        (mapAnthropicError e).isRetryable = false) := by
  refine ⟨?_, ?_, ?_, ?_⟩
  · unfold mapAnthropicError
    split_ifs <;>
      simp [AuthenticationError, RateLimitError, ModelNotFoundError,
        InvalidRequestError, NetworkError]
  · intro h
    simp [mapAnthropicError, h, AuthenticationError]
  · intro h
    simp [mapAnthropicError, h, RateLimitError]
  · intro hs h1 h2
    have h400 : statusOf e ≠ some 400 := fun hq => by have := hs 400 hq; simp at this
    have h401 : statusOf e ≠ some 401 := fun hq => by have := hs 401 hq; simp at this
    have h404 : statusOf e ≠ some 404 := fun hq => by have := hs 404 hq; simp at this
    have h429 : statusOf e ≠ some 429 := fun hq => by have := hs 429 hq; simp at this
    simp [mapAnthropicError, h400, h401, h404, h429, h1, h2]

theorem c6_witness :
    (mapAnthropicError { status := some 401 }).code = "AUTH_FAILED" ∧
    (mapAnthropicError { status := some 401 }).isRetryable = false ∧
    (mapAnthropicError { status := some 429 }).code = "RATE_LIMIT" ∧
    (mapAnthropicError { status := some 429 }).isRetryable = true ∧
    (mapAnthropicError { }).code = "UNKNOWN_ERROR" ∧
    (mapAnthropicError { }).isRetryable = false := by
  have h1 := (c6_mapAnthropicError_total { status := some 401 }).2.1 (by decide)
  have h2 := (c6_mapAnthropicError_total { status := some 429 }).2.2.1 (by decide)
  have h3 := (c6_mapAnthropicError_total { }).2.2.2
    (by intro s hq; simp [statusOf] at hq) (by decide) (by decide)
  exact ⟨h1.1, h1.2, h2.1, h2.2, h3.1, h3.2⟩

/-- C7: `storeKey` fails with the format error exactly when the secret fails
the shape check (length under 20 or a character outside `[a-zA-Z0-9_-]`),
and such a failure leaves the entire state unchanged — nothing is written. -/
theorem c7_storeKey_invalid_writes_nothing (st : ManagerState) (id : String)
    (s : List Nat) :
    ((storeKeyOp id s st).1 = Except.error "Invalid API key format" ↔
      isValidApiKey s = false) ∧
    (isValidApiKey s = false →
      storeKeyOp id s st = (Except.error "Invalid API key format", st)) ∧
    (isValidApiKey s = false ↔
      s.length < 20 ∨ ¬ (∀ c ∈ s, (65 ≤ c ∧ c ≤ 90) ∨ (97 ≤ c ∧ c ≤ 122) ∨
        (48 ≤ c ∧ c ≤ 57) ∨ c = 95 ∨ c = 45)) := by
  refine ⟨?_, ?_, ?_⟩
  · by_cases hv : isValidApiKey s
    · simp [storeKeyOp, hv]
    · simp [storeKeyOp, hv]
  · intro hv
    simp [storeKeyOp, hv]
  · rw [Bool.eq_false_iff]
    constructor
    · intro h
      by_cases hl : s.length < 20
      · exact Or.inl hl
      · right
        intro hall
        apply h
        simp only [isValidApiKey, Bool.and_eq_true, decide_eq_true_eq, List.all_eq_true,
          Bool.or_eq_true]
        refine ⟨by omega, ?_⟩
        intro c hc
        have := hall c hc
        tauto
    · intro h hval
      simp only [isValidApiKey, Bool.and_eq_true, decide_eq_true_eq, List.all_eq_true,
        Bool.or_eq_true] at hval
      rcases h with hl | hc
      · omega
      · refine hc fun c hcm => ?_
        have := hval.2 c hcm
        tauto

theorem c7_witness :
    isValidApiKey [97] = false ∧
    storeKeyOp "m" [97] wState = (Except.error "Invalid API key format", wState) :=
  ⟨by decide, (c7_storeKey_invalid_writes_nothing wState "m" [97]).2.1 (by decide)⟩

/-- C9: every successful `storeKey` unconditionally writes a rotation record
for the identifier with the 90-day policy, `rotationReminder = true` and
`lastRotated` equal to the current time, overwriting any previous record. -/
theorem c9_storeKey_initializes_rotation (st : ManagerState) (id : String)
    (s : List Nat) (h : (storeKeyOp id s st).1 = Except.ok ()) :
    ((storeKeyOp id s st).2.rotations).lookup id = some (defaultRotation st.now) := by
  by_cases hv : isValidApiKey s
  · have hnow : (encryptOp s st).2.now = st.now := (encryptOp_fields s st).2.2.2.2.2
    simp [storeKeyOp, hv, initializeRotation, lookup_storeAssoc_self, hnow, defaultRotation]
  · simp [storeKeyOp, hv] at h

theorem c9_witness :
    (storeKeyOp "m" wSecret wState).1 = Except.ok () ∧
    ((storeKeyOp "m" wSecret wState).2.rotations).lookup "m" =
      some (defaultRotation wState.now) :=
  ⟨rfl, c9_storeKey_initializes_rotation wState "m" wSecret rfl⟩

/-- C4 counterexample: one failed access (no key stored yet — `getKey`
throws before touching the audit) followed by one successful access on the
same identifier leaves the audit entry at `requestCount = 1`,
`failedAttempts = 0`, not the claimed `requestCount = 2`,
`failedAttempts = 1`. -/
theorem c4_counterexample :
    (getKeyOp "m" wState).1 = Except.error "No API key found for model: m" ∧
    (getKeyOp "m" wState).2 = wState ∧
    getAuditOp "m" (getKeyOp "m" (storeKeyOp "m" wSecret wState).2).2 =
      some { keyId := hashKeyId "m", lastUsed := wState.now, requestCount := 1,
             failedAttempts := 0 } := by
  refine ⟨rfl, rfl, ?_⟩
  decide

/-- C4 (amended): the audit updater satisfies the increment rule — a success
event increments `requestCount` only, a failure event increments both, so
one success then one failure on a fresh identifier yields `requestCount = 2`
and `failedAttempts = 1` — but `getKey` records a success event only on its
success path; its failure paths (no envelope) return without recording, so
failed accesses leave the audit untouched. -/
theorem c4_audit_accumulation (st : ManagerState) (id : String)
    (hfresh : st.audits.lookup (hashKeyId id) = none) :
    ((updateAudit id false (updateAudit id true st)).audits.lookup (hashKeyId id) =
      some { keyId := hashKeyId id, lastUsed := st.now, requestCount := 2,
             failedAttempts := 1 }) ∧
    (∀ a, st.audits.lookup (hashKeyId id) = some a →
      (updateAudit id true st).audits.lookup (hashKeyId id) =
        some { a with lastUsed := st.now, requestCount := a.requestCount + 1 } ∧
      (updateAudit id false st).audits.lookup (hashKeyId id) =
        some { a with lastUsed := st.now, requestCount := a.requestCount + 1,
                      failedAttempts := a.failedAttempts + 1 }) ∧
    (st.envelopes.lookup id = none → (getKeyOp id st).2 = st) ∧
    (∀ enc v st1, st.envelopes.lookup id = some enc →
      decryptOp enc st = (Except.ok v, st1) →
      getKeyOp id st = (Except.ok v, updateAudit id true st1)) := by
  refine ⟨?_, ?_, ?_, ?_⟩
  · simp [updateAudit, hfresh, lookup_storeAssoc_self]
  · intro a ha
    constructor <;> simp [updateAudit, ha, lookup_storeAssoc_self]
  · intro henv
    simp [getKeyOp, henv]
  · intro enc v st1 henv hdec
    simp [getKeyOp, henv, hdec]

theorem c4_witness :
    wState.audits.lookup (hashKeyId "m") = none ∧
    (updateAudit "m" false (updateAudit "m" true wState)).audits.lookup (hashKeyId "m") =
      some { keyId := hashKeyId "m", lastUsed := wState.now, requestCount := 2,
             failedAttempts := 1 } :=
  ⟨rfl, (c4_audit_accumulation wState "m" rfl).1⟩

theorem storeKeyOp_valid_state (st : ManagerState) (id : String) (s : List Nat)
    (hv : isValidApiKey s = true) :
    (storeKeyOp id s st).1 = Except.ok () ∧
    (storeKeyOp id s st).2.envelopes.lookup id = some (encryptOp s st).1 ∧
    (storeKeyOp id s st).2.salt = (encryptOp s st).2.salt ∧
    (storeKeyOp id s st).2.machineId = st.machineId ∧
    (storeKeyOp id s st).2.legacy = st.legacy ∧
    (storeKeyOp id s st).2.audits = st.audits := by
  obtain ⟨henv, hrot, hleg, haud, hmid, hnow⟩ := encryptOp_fields s st
  refine ⟨by simp [storeKeyOp, hv], ?_, ?_, ?_, ?_, ?_⟩ <;>
    simp [storeKeyOp, hv, initializeRotation, lookup_storeAssoc_self, henv, hmid,
      hleg, haud]

/-- A `getKey` served by the new scheme: any state holding the envelope the
re-store produced, together with the matching salt and machine identity,
decrypts it back to the original secret and records a success audit event. -/
theorem getKeyOp_new_scheme (st st2 : ManagerState) (id : String) (s : List Nat)
    (ht : ∀ b ∈ s, b < 256)
    (henv : st2.envelopes.lookup id = some (encryptOp s st).1)
    (hsalt : st2.salt = (encryptOp s st).2.salt)
    (hmid : st2.machineId = st.machineId) :
    getKeyOp id st2 = (Except.ok s, updateAudit id true st2) := by
  simp only [getKeyOp, henv]
  rw [decryptOp_encryptOp_matching st st2 s ht hsalt hmid]

/-- C10: `getAPIKey` resolves `undefined` (`Except.ok none`) rather than
rejecting whenever no key exists for the identifier under the new Envelope
scheme nor under the legacy model-level or provider-level layouts. -/
theorem c10_getAPIKey_absent_undefined (st : ManagerState) (provider : String)
    (modelId : Option String)
    (henv : st.envelopes.lookup (keyIdOf provider modelId) = none)
    (hlegm : ∀ m, modelId = some m → st.legacy.lookup (legacyModelKey provider m) = none)
    (hlegp : st.legacy.lookup (legacyProviderKey provider) = none) :
    getAPIKey provider modelId st = (Except.ok none, st) := by
  have hgk : getKeyOp (keyIdOf provider modelId) st =
      (Except.error ("No API key found for model: " ++ keyIdOf provider modelId), st) := by
    simp [getKeyOp, henv]
  cases modelId with
  | none => simp [getAPIKey, hgk, getAPIKeyProviderFallback, hlegp]
  | some m => simp [getAPIKey, hgk, hlegm m rfl, getAPIKeyProviderFallback, hlegp]

theorem c10_witness :
    getAPIKey "anthropic" (some "claude") wState = (Except.ok none, wState) :=
  c10_getAPIKey_absent_undefined wState "anthropic" (some "claude") rfl
    (fun m hm => by cases hm; rfl) rfl

/-- C2: legacy migration through `getAPIKey`.  When the new scheme has no
envelope and a legacy model-level entry holds the value: a falsy (empty)
value is skipped by the `if (modelKey)` guard, falling through to the
provider-level probe without touching the legacy entry; if the re-store of
a truthy value fails, the error propagates with the state unchanged, so the
legacy entry is preserved (at least one copy survives); if the re-store
succeeds, the value is returned, the legacy entry is deleted only in that
success branch, the new envelope is present, and a subsequent lookup of the
same identifier is served by the new scheme (`getKey` succeeds, returning
the value, without the fallback path). -/
theorem c2_legacy_migration (st : ManagerState) (provider m : String) (mk : List Nat)
    (henv : st.envelopes.lookup (keyIdOf provider (some m)) = none)
    (hleg : st.legacy.lookup (legacyModelKey provider m) = some mk) :
    (mk = [] →
      getAPIKey provider (some m) st = getAPIKeyProviderFallback provider st) ∧
    (mk ≠ [] → isValidApiKey mk = false →
      getAPIKey provider (some m) st = (Except.error "Invalid API key format", st) ∧
      st.legacy.lookup (legacyModelKey provider m) = some mk) ∧
    (isValidApiKey mk = true →
      (getAPIKey provider (some m) st).1 = Except.ok (some mk) ∧
      (getAPIKey provider (some m) st).2.legacy.lookup (legacyModelKey provider m) =
        none ∧
      (getAPIKey provider (some m) st).2.envelopes.lookup (keyIdOf provider (some m)) =
        some (encryptOp mk st).1 ∧
      (getKeyOp (keyIdOf provider (some m)) (getAPIKey provider (some m) st).2).1 =
        Except.ok mk ∧
      (getAPIKey provider (some m) (getAPIKey provider (some m) st).2).1 =
        Except.ok (some mk)) := by
  have hgk : getKeyOp (keyIdOf provider (some m)) st =
      (Except.error ("No API key found for model: " ++ keyIdOf provider (some m)), st) := by
    simp [getKeyOp, henv]
  refine ⟨?_, ?_, ?_⟩
  · intro hemp
    simp [getAPIKey, hgk, hleg, hemp]
  · intro hne hv
    have hstore : storeKeyOp (provider ++ "-" ++ m) mk st =
        (Except.error "Invalid API key format", st) := by
      simp [storeKeyOp, hv]
    refine ⟨?_, hleg⟩
    simp [getAPIKey, hgk, hleg, hne, hstore]
  · intro hv
    have hne : mk ≠ [] := by
      intro h
      rw [h] at hv
      simp [isValidApiKey] at hv
    obtain ⟨hok, henv2, hsalt2, hmid2, hleg2, haud2⟩ :=
      storeKeyOp_valid_state st (provider ++ "-" ++ m) mk hv
    have hkid : keyIdOf provider (some m) = provider ++ "-" ++ m := rfl
    have hres : getAPIKey provider (some m) st =
        (Except.ok (some mk),
          { (storeKeyOp (provider ++ "-" ++ m) mk st).2 with
            legacy := removeAssoc (legacyModelKey provider m)
              (storeKeyOp (provider ++ "-" ++ m) mk st).2.legacy }) := by
      have hstore : storeKeyOp (provider ++ "-" ++ m) mk st =
          (Except.ok (), (storeKeyOp (provider ++ "-" ++ m) mk st).2) := by
        rw [← hok]
      simp only [getAPIKey, hgk, hleg]
      rw [if_neg hne, hstore]
    rw [hres]
    have hms : ∀ b ∈ mk, b < 256 := isValidApiKey_bytes_lt mk hv
    have hsecond := getKeyOp_new_scheme st
      { (storeKeyOp (provider ++ "-" ++ m) mk st).2 with
        legacy := removeAssoc (legacyModelKey provider m)
          (storeKeyOp (provider ++ "-" ++ m) mk st).2.legacy }
      (keyIdOf provider (some m)) mk hms (by rw [hkid]; exact henv2) hsalt2 hmid2
    refine ⟨rfl, ?_, ?_, ?_, ?_⟩
    · exact lookup_removeAssoc_self _ _
    · rw [hkid]
      exact henv2
    · rw [hsecond]
    · simp [getAPIKey, hsecond]

theorem c2_witness :
    isValidApiKey wSecret = true ∧
    (getAPIKey "anthropic" (some "claude") c2State).1 = Except.ok (some wSecret) ∧
    (getKeyOp (keyIdOf "anthropic" (some "claude"))
        (getAPIKey "anthropic" (some "claude") c2State).2).1 = Except.ok wSecret :=
  ⟨by decide,
    ((c2_legacy_migration c2State "anthropic" "claude" wSecret rfl rfl).2.2 (by decide)).1,
    ((c2_legacy_migration c2State "anthropic" "claude" wSecret rfl rfl).2.2
      (by decide)).2.2.2.1⟩

end Byok
